/-
Verification of the range-bar aggregation, gap-recovery and incremental
indicator pipeline (historic_df_live.py, indicator_computes.py).

Shallow embedding conventions:
* Python floats are modelled by exact rationals (ℚ); millisecond epoch
  timestamps by integers (ℤ).
* Python dicts holding bar and kline data become structures whose field
  names follow the source keys.
* Mutable module-level state becomes explicit state records threaded
  through the translated functions.
* Fallible or absent values (None, NaN) become Option.
-/
import Mathlib

/-! ## Range-bar aggregator (historic_df_live.py) -/

/-- A kline event, as stored in the klines_data deque by kline_handler /
fetch_historical_klines. -/
structure Kline where
  timestamp : ℤ
  open_time : ℤ
  close_time : ℤ
  open_ : ℚ
  high : ℚ
  low : ℚ
  close_ : ℚ
  volume : ℚ
  quote_volume : ℚ
  trades : ℤ
deriving DecidableEq, Repr

/-- The in-progress bar dict (`current_bar` global). -/
structure CurrentBar where
  open_price : ℚ
  high : ℚ
  low : ℚ
  close_price : ℚ
  open_time : ℤ
  close_time : ℤ
deriving DecidableEq, Repr

/-- The dict returned by create_completed_bar.  The two timestamp fields
are formatted to strings in the source; we keep the underlying
millisecond values. -/
structure CompletedBar where
  open_time : ℤ
  open_ : ℚ
  high : ℚ
  low : ℚ
  close_ : ℚ
  volume : ℚ
  close_time : ℤ
  quote_asset_volume : ℚ
  number_of_trades : ℤ
  taker_buy_base : ℚ
  taker_buy_quote : ℚ
  ignore : ℤ
deriving DecidableEq, Repr

/-- The aggregator's mutable globals: `current_bar` and `bar_klines`. -/
structure AggState where
  current_bar : Option CurrentBar
  bar_klines : List Kline
deriving DecidableEq, Repr

/-- check_range_completion: completes when span (high - low) >= range_size. -/
def check_range_completion (range_size high low : ℚ) : Bool :=
  range_size ≤ high - low

/-- create_completed_bar: aggregates volume/trades over the contributing
klines; taker buy volumes are estimated as half of the totals
(`total_volume * 0.5`, `total_quote_volume * 0.5`). -/
def create_completed_bar (open_price high low close_price : ℚ)
    (klines : List Kline) (open_time close_time : ℤ) : CompletedBar :=
  let total_volume := (klines.map Kline.volume).sum
  let total_quote_volume := (klines.map Kline.quote_volume).sum
  let total_trades := (klines.map Kline.trades).sum
  let taker_buy_base := total_volume * (1/2)
  let taker_buy_quote := total_quote_volume * (1/2)
  { open_time := open_time
    open_ := open_price
    high := high
    low := low
    close_ := close_price
    volume := total_volume
    close_time := close_time
    quote_asset_volume := total_quote_volume
    number_of_trades := total_trades
    taker_buy_base := taker_buy_base
    taker_buy_quote := taker_buy_quote
    ignore := 0 }

/-- handle_large_price_jump: when the move from the open spans at least
two ranges, complete the current bar at `open ± range_size` and, if the
remaining move still reaches range_size, synthesize one additional bar
ending at the triggering price.  Returns emitted bars and the new
aggregator state (the source mutates the globals). -/
def handle_large_price_jump (range_size price : ℚ) (timestamp : ℤ)
    (kline_data : Kline) (st : AggState) : List CompletedBar × AggState :=
  match st.current_bar with
  | none => ([], st)
  | some cb =>
    let open_price := cb.open_price
    let price_move := |price - open_price|
    let possible_bars : ℤ := Int.floor (price_move / range_size)
    if 2 ≤ possible_bars then
      -- complete the current bar at the extreme that triggers completion
      let tri : ℚ × ℚ × ℚ :=
        if open_price < price then
          (open_price + range_size, cb.low, open_price + range_size)
        else
          (cb.high, open_price - range_size, open_price - range_size)
      let completed_high := tri.1
      let completed_low := tri.2.1
      let completed_close := tri.2.2
      let completed_bar := create_completed_bar open_price completed_high
        completed_low completed_close st.bar_klines cb.open_time timestamp
      let remaining_move := |price - completed_close|
      if range_size ≤ remaining_move then
        let quad : ℚ × ℚ × ℚ × ℚ :=
          if completed_close < price then
            (completed_close, price, completed_close, price)
          else
            (completed_close, completed_close, price, price)
        let additional_open := quad.1
        let additional_high := quad.2.1
        let additional_low := quad.2.2.1
        let additional_close := quad.2.2.2
        let additional_bar := create_completed_bar additional_open
          additional_high additional_low additional_close [kline_data]
          timestamp timestamp
        ([completed_bar, additional_bar],
         { current_bar := some
             { open_price := additional_close
               high := additional_close
               low := additional_close
               close_price := additional_close
               open_time := timestamp
               close_time := timestamp }
           bar_klines := [] })
      else
        ([completed_bar],
         { current_bar := some
             { open_price := completed_close
               high := max completed_close price
               low := min completed_close price
               close_price := price
               open_time := timestamp
               close_time := timestamp }
           bar_klines := [kline_data] })
    else ([], st)

/-- process_kline_into_bar: the ordinary per-event path.  Appends the
kline, seeds or extends the current bar, and emits a completed bar when
check_range_completion holds. -/
def process_kline_into_bar (range_size : ℚ) (kline_data : Kline)
    (st : AggState) : Option CompletedBar × AggState :=
  let price := kline_data.close_
  let timestamp := kline_data.close_time
  let high := kline_data.high
  let low := kline_data.low
  let bar_klines := st.bar_klines ++ [kline_data]
  match st.current_bar with
  | none =>
    (none,
     { current_bar := some
         { open_price := price, high := high, low := low, close_price := price
           open_time := kline_data.open_time, close_time := timestamp }
       bar_klines := bar_klines })
  | some cb =>
    let cb' : CurrentBar :=
      { cb with high := max cb.high high, low := min cb.low low
                close_price := price, close_time := timestamp }
    if check_range_completion range_size cb'.high cb'.low then
      let completed_bar := create_completed_bar cb'.open_price cb'.high cb'.low
        cb'.close_price bar_klines cb'.open_time cb'.close_time
      (some completed_bar,
       { current_bar := some
           { open_price := cb'.close_price, high := cb'.close_price
             low := cb'.close_price, close_price := cb'.close_price
             open_time := timestamp, close_time := timestamp }
         bar_klines := [] })
    else (none, { current_bar := some cb', bar_klines := bar_klines })

/-- One iteration of the loop body of create_range_bar_from_klines:
first the large-jump check (duplicated in the source before the call to
handle_large_price_jump), falling through to normal processing when the
handler emits nothing. -/
def range_bar_step (range_size : ℚ) (st : AggState) (kline : Kline) :
    List CompletedBar × AggState :=
  let price := kline.close_
  let timestamp := kline.close_time
  match st.current_bar with
  | some cb =>
    let price_move := |price - cb.open_price|
    let possible_bars : ℤ := Int.floor (price_move / range_size)
    if 2 ≤ possible_bars then
      let res := handle_large_price_jump range_size price timestamp kline st
      if res.1 = [] then
        let res' := process_kline_into_bar range_size kline res.2
        (res'.1.toList, res'.2)
      else res
    else
      let res' := process_kline_into_bar range_size kline st
      (res'.1.toList, res'.2)
  | none =>
    let res' := process_kline_into_bar range_size kline st
    (res'.1.toList, res'.2)

/-- create_range_bar_from_klines: drains the pending kline buffer in
order, collecting all completed bars (the source also returns the flag
`len(all_completed_bars) > 0`, derivable from the list). -/
def create_range_bar_from_klines (range_size : ℚ) :
    List Kline → AggState → List CompletedBar × AggState
  | [], st => ([], st)
  | k :: ks, st =>
    let res := range_bar_step range_size st k
    let rest := create_range_bar_from_klines range_size ks res.2
    (res.1 ++ rest.1, rest.2)

/-- A well-formed kline event: the low does not exceed the close and the
close does not exceed the high (true of every exchange-produced kline). -/
def WFKline (k : Kline) : Prop := k.low ≤ k.close_ ∧ k.close_ ≤ k.high

/-- Invariant of the in-progress bar: its running low is at most the open
price which is at most the running high. -/
def GoodBar (cb : CurrentBar) : Prop :=
  cb.low ≤ cb.open_price ∧ cb.open_price ≤ cb.high

/-- Invariant of the aggregator state. -/
def GoodState (st : AggState) : Prop :=
  ∀ cb ∈ st.current_bar, GoodBar cb

instance (k : Kline) : Decidable (WFKline k) :=
  inferInstanceAs (Decidable (_ ∧ _))

/-! ## Gap recovery (check_for_data_gaps in historic_df_live.py) -/

/-- The module-level state read and written by check_for_data_gaps.
Timestamps are millisecond epoch values. -/
structure GapState where
  prefetch_completed : Bool
  gap_filling_in_progress : Bool
  data_gap_filling : Bool
  last_gap_fill_time : Option ℤ
  last_successful_ws_update : Option ℤ
  ws_reconnection_detected : Bool
  gap_fill_retry_count : ℕ
  klines_data : List Kline
deriving DecidableEq

/-- Stable insertion of a kline into a timestamp-sorted list (models the
stable Python list.sort with key x.timestamp). -/
def insertByTimestamp (x : Kline) : List Kline → List Kline
  | [] => [x]
  | y :: ys =>
    if y.timestamp ≤ x.timestamp then y :: insertByTimestamp x ys
    else x :: y :: ys

/-- Sort a kline list by timestamp. -/
def sortByTimestamp : List Kline → List Kline
  | [] => []
  | x :: xs => insertByTimestamp x (sortByTimestamp xs)

/-- The chunked fetch loop of check_for_data_gaps: repeatedly fetches
`[current, min (current + chunk_size_ms) gap_end]` and advances to one
past the chunk end.  `chunk_size_ms = MAX_KLINES_PER_REQUEST *
KLINE_INTERVAL_SECONDS * 1000 = 1000000`.  Each nonempty chunk is sorted
by timestamp before being collected.  The loop is modelled with an
explicit fuel argument strictly larger than the number of iterations;
every caller supplies sufficient fuel.  Returns the list of fetch calls
made (start, end) and the collected data. -/
def gapChunkLoop (fetch : ℤ → ℤ → List Kline) (gap_end : ℤ) :
    ℕ → ℤ → List (ℤ × ℤ) × List Kline
  | 0, _ => ([], [])
  | fuel + 1, current_chunk_start =>
    if current_chunk_start < gap_end then
      let current_chunk_end := min (current_chunk_start + 1000000) gap_end
      let chunk_data := fetch current_chunk_start current_chunk_end
      let rest := gapChunkLoop fetch gap_end fuel (current_chunk_end + 1)
      ((current_chunk_start, current_chunk_end) :: rest.1,
       (if chunk_data.isEmpty then [] else sortByTimestamp chunk_data) ++ rest.2)
    else ([], [])

/-- Result of one call to check_for_data_gaps: the new state, the
returned Bool, and the trace of historical-fetch calls it issued. -/
structure GapCheckResult where
  st : GapState
  filled : Bool
  fetch_calls : List (ℤ × ℤ)
deriving DecidableEq

/-- The post-trigger body of check_for_data_gaps, from the window
computation onward.  `last` is the unwrapped watermark; `now` is
current_time in ms.  Window: `gap_start_ms = last + 1000` (watermark
plus one second), `gap_end_ms = now - 2000` (two-second safety margin).
The `finally` block always clears the transient in-progress flags (they
started false and return false here) and stamps last_gap_fill_time. -/
def gap_fill_core (now : ℤ) (fetch : ℤ → ℤ → List Kline) (st : GapState)
    (last : ℤ) : GapCheckResult :=
  let gap_start_ms := last + 1000
  let gap_end_ms := now - 2000
  if gap_end_ms ≤ gap_start_ms then
    -- "Gap is too small or negative, skipping": reset retry count
    ⟨{ st with gap_fill_retry_count := 0, last_gap_fill_time := some now },
     false, []⟩
  else
    let fuel := (gap_end_ms - gap_start_ms).toNat + 1
    let res := gapChunkLoop fetch gap_end_ms fuel gap_start_ms
    let all_gap_data := res.2
    if all_gap_data.isEmpty then
      let retry := st.gap_fill_retry_count + 1
      if 3 ≤ retry then
        -- max retries reached: give up, advance watermark to now
        ⟨{ st with gap_fill_retry_count := 0
                   last_successful_ws_update := some now
                   last_gap_fill_time := some now },
         false, res.1⟩
      else
        ⟨{ st with gap_fill_retry_count := retry
                   last_gap_fill_time := some now },
         false, res.1⟩
    else
      -- success: merge chronologically, advance watermark to window end
      ⟨{ st with klines_data := sortByTimestamp (st.klines_data ++ all_gap_data)
                 last_successful_ws_update := some gap_end_ms
                 gap_fill_retry_count := 0
                 last_gap_fill_time := some now },
       true, res.1⟩

/-- check_for_data_gaps: guards, the 10-second debounce, the three
trigger reasons (reconnection flag — which is consumed —, staleness over
GAP_DETECTION_THRESHOLD = 300 s, pending retries), then the backfill
core.  Staleness `time_since_last_update > 300` (seconds) is compared in
milliseconds. -/
def check_for_data_gaps (now : ℤ) (fetch : ℤ → ℤ → List Kline)
    (st : GapState) : GapCheckResult :=
  if st.prefetch_completed = false ∨ st.gap_filling_in_progress = true ∨
      st.data_gap_filling = true then
    ⟨st, false, []⟩
  else
    match st.last_gap_fill_time with
    | some t =>
      if now - t < 10000 then ⟨st, false, []⟩
      else
        match st.last_successful_ws_update with
        | none => ⟨st, false, []⟩
        | some last =>
          if st.ws_reconnection_detected then
            gap_fill_core now fetch { st with ws_reconnection_detected := false } last
          else if 300000 < now - last then
            gap_fill_core now fetch st last
          else if 0 < st.gap_fill_retry_count then
            gap_fill_core now fetch st last
          else ⟨st, false, []⟩
    | none =>
      match st.last_successful_ws_update with
      | none => ⟨st, false, []⟩
      | some last =>
        if st.ws_reconnection_detected then
          gap_fill_core now fetch { st with ws_reconnection_detected := false } last
        else if 300000 < now - last then
          gap_fill_core now fetch st last
        else if 0 < st.gap_fill_retry_count then
          gap_fill_core now fetch st last
        else ⟨st, false, []⟩

/-- The debounce guard holds: no gap fill in the last 10 seconds. -/
def debounce_ok (now : ℤ) (st : GapState) : Bool :=
  match st.last_gap_fill_time with
  | none => true
  | some t => !(now - t < 10000)

/-- One of the three trigger reasons of check_for_data_gaps holds. -/
def gap_triggered (now last : ℤ) (st : GapState) : Bool :=
  st.ws_reconnection_detected || decide (300000 < now - last) ||
    decide (0 < st.gap_fill_retry_count)

/-! ## Stateful indicator calculators (indicator_computes.py) -/

/-- Appending to a collections.deque with a maximum length: the oldest
elements are dropped once the bound is exceeded. -/
def dequeAppend (maxlen : ℕ) (xs : List ℚ) (x : ℚ) : List ℚ :=
  let ys := xs ++ [x]
  if maxlen < ys.length then ys.drop (ys.length - maxlen) else ys

/-- State of StatefulRSICalculator.  The source also stores
`alpha = 1 / length`, which no method ever reads, so it is omitted. -/
structure RSIState where
  length : ℕ
  previous_avg_gain : Option ℚ
  previous_avg_loss : Option ℚ
  previous_price : Option ℚ
  initialized : Bool
  initial_prices : List ℚ
deriving DecidableEq

/-- StatefulRSICalculator.__init__. -/
def freshRSI (length : ℕ) : RSIState :=
  { length := length, previous_avg_gain := none, previous_avg_loss := none
    previous_price := none, initialized := false, initial_prices := [] }

/-- StatefulRSICalculator.initialize: seeds the running averages with
simple means over the first `length` gains/losses (np.diff, np.where
with `changes >= 0` for gains and `changes < 0` for losses) and returns
the first RSI value. -/
def rsi_init_seed (st : RSIState) (prices : List ℚ) : RSIState × Option ℚ :=
  if prices.length < st.length + 1 then (st, none)
  else
    let changes := List.zipWith (fun a b => a - b) prices.tail prices
    let gains := changes.map (fun c => if 0 ≤ c then c else 0)
    let losses := changes.map (fun c => if c < 0 then -c else 0)
    let previous_avg_gain := (gains.take st.length).sum / st.length
    let previous_avg_loss := (losses.take st.length).sum / st.length
    let st' := { st with previous_avg_gain := some previous_avg_gain
                         previous_avg_loss := some previous_avg_loss
                         previous_price := prices.getLast?
                         initialized := true }
    if previous_avg_loss = 0 then (st', some 100)
    else if previous_avg_gain = 0 then (st', some 0)
    else
      let rs := previous_avg_gain / previous_avg_loss
      (st', some (100 - 100 / (1 + rs)))

/-- StatefulRSICalculator.update: collects `length + 1` seed prices,
then applies Wilder smoothing
`avg ← (avg * (length - 1) + x) / length` to both running averages.
The arithmetic on the running averages is only defined once they are
set; the impossible uninitialized-with-missing-fields case returns the
state unchanged. -/
def rsi_update (st : RSIState) (new_price : ℚ) : RSIState × Option ℚ :=
  if st.initialized = false then
    let ip := dequeAppend (st.length + 1) st.initial_prices new_price
    let st' := { st with initial_prices := ip }
    if st.length + 1 ≤ ip.length then rsi_init_seed st' ip
    else (st', none)
  else
    match st.previous_avg_gain, st.previous_avg_loss, st.previous_price with
    | some ag, some al, some pp =>
      let change := new_price - pp
      let gain := if 0 < change then change else 0
      let loss := if change < 0 then -change else 0
      let ag' := (ag * ((st.length : ℚ) - 1) + gain) / st.length
      let al' := (al * ((st.length : ℚ) - 1) + loss) / st.length
      let st' := { st with previous_avg_gain := some ag'
                           previous_avg_loss := some al'
                           previous_price := some new_price }
      if al' = 0 then (st', some 100)
      else if ag' = 0 then (st', some 0)
      else
        let rs := ag' / al'
        (st', some (100 - 100 / (1 + rs)))
    | _, _, _ => (st, none)

/-- Feed a list of prices through the RSI calculator, collecting the
returned values in order. -/
def rsi_run (st : RSIState) : List ℚ → RSIState × List (Option ℚ)
  | [] => (st, [])
  | p :: ps =>
    let res := rsi_update st p
    let rest := rsi_run res.1 ps
    (rest.1, res.2 :: rest.2)

/-- State of StatefulSMA (the RSI signal line, length 36). -/
structure SMAState where
  length : ℕ
  values : List ℚ
  initialized : Bool
deriving DecidableEq

/-- StatefulSMA.update for a defined (non-NaN) input; callers model the
`pd.isna` guard by not calling it on missing values.  Returns NaN
(none) until the window is full, then np.mean of the window. -/
def sma_update (st : SMAState) (new_value : ℚ) : SMAState × Option ℚ :=
  let values := dequeAppend st.length st.values new_value
  if values.length < st.length then
    ({ st with values := values }, none)
  else
    ({ st with values := values, initialized := true },
     some (values.sum / values.length))

/-- State of StatefulMovingAverage. -/
structure MAState where
  length : ℕ
  prices : List ℚ
  initialized : Bool
deriving DecidableEq

/-- StatefulMovingAverage.__init__. -/
def freshMA (length : ℕ) : MAState :=
  { length := length, prices := [], initialized := false }

/-- StatefulMovingAverage.update: NaN (none) until the window holds
`length` prices, then `sum(prices) / len(prices)`. -/
def ma_update (st : MAState) (new_price : ℚ) : MAState × Option ℚ :=
  let prices := dequeAppend st.length st.prices new_price
  if prices.length < st.length then
    ({ st with prices := prices }, none)
  else
    ({ st with prices := prices, initialized := true },
     some (prices.sum / prices.length))

/-- Feed a list of prices through a moving average, collecting outputs. -/
def ma_run (st : MAState) : List ℚ → MAState × List (Option ℚ)
  | [] => (st, [])
  | p :: ps =>
    let res := ma_update st p
    let rest := ma_run res.1 ps
    (rest.1, res.2 :: rest.2)

/-- The seven Fibonacci levels returned by StatefulFibonacci.update
(all NaN until the window fills). -/
structure FibLevels where
  level_100 : Option ℚ
  level_764 : Option ℚ
  level_618 : Option ℚ
  level_500 : Option ℚ
  level_382 : Option ℚ
  level_236 : Option ℚ
  level_000 : Option ℚ
deriving DecidableEq

/-- State of StatefulFibonacci (length 5000). -/
structure FibState where
  length : ℕ
  prices : List ℚ
  initialized : Bool
deriving DecidableEq

/-- Maximum of a nonempty price list (max(self.prices)). -/
def listMax : List ℚ → ℚ
  | [] => 0
  | x :: xs => xs.foldl max x

/-- Minimum of a nonempty price list (min(self.prices)). -/
def listMin : List ℚ → ℚ
  | [] => 0
  | x :: xs => xs.foldl min x

/-- StatefulFibonacci.update. -/
def fib_update (st : FibState) (new_price : ℚ) : FibState × FibLevels :=
  let prices := dequeAppend st.length st.prices new_price
  if prices.length < st.length then
    ({ st with prices := prices },
     ⟨none, none, none, none, none, none, none⟩)
  else
    let maxr := listMax prices
    let minr := listMin prices
    let ranr := maxr - minr
    ({ st with prices := prices, initialized := true },
     ⟨some maxr,
      some (maxr - 236/1000 * ranr),
      some (maxr - 382/1000 * ranr),
      some (maxr - 1/2 * ranr),
      some (minr + 382/1000 * ranr),
      some (minr + 236/1000 * ranr),
      some minr⟩)

/-! ## StatefulIndicatorEngine -/

/-- The engine consumes bar rows; only the "Open Time" and "Close"
columns drive any indicator computation. -/
structure Bar where
  open_time : ℤ
  close_ : ℚ
deriving DecidableEq

/-- One indicator row: the indicator columns attached to a bar (the
bar's own OHLCV columns are copied through unchanged; the external
daily-difference column depends on live network state and is outside
the engine's arithmetic). -/
structure IndRow where
  rsi : Option ℚ
  rsi_ma50 : Option ℚ
  short002 : Option ℚ
  short007 : Option ℚ
  short21 : Option ℚ
  short50 : Option ℚ
  long100 : Option ℚ
  long200 : Option ℚ
  long350 : Option ℚ
  long500 : Option ℚ
  fib : FibLevels
deriving DecidableEq

/-- State of StatefulIndicatorEngine: the flag, the last processed
open-time, and every calculator. -/
structure EngineState where
  initialized : Bool
  last_processed_time : Option ℤ
  rsi : RSIState
  rsi_ma50 : SMAState
  ma2 : MAState
  ma7 : MAState
  ma14 : MAState
  ma50 : MAState
  ma100 : MAState
  ma200 : MAState
  ma350 : MAState
  ma500 : MAState
  fibonacci : FibState
deriving DecidableEq

/-- StatefulIndicatorEngine.__init__. -/
def freshEngine : EngineState :=
  { initialized := false
    last_processed_time := none
    rsi := freshRSI 14
    rsi_ma50 := { length := 36, values := [], initialized := false }
    ma2 := freshMA 2
    ma7 := freshMA 7
    ma14 := freshMA 14
    ma50 := freshMA 50
    ma100 := freshMA 100
    ma200 := freshMA 200
    ma350 := freshMA 350
    ma500 := freshMA 500
    fibonacci := { length := 5000, prices := [], initialized := false } }

/-- Loop body of initialize_from_history for one historical row: update
every calculator with the row's close (the RSI signal SMA only when the
RSI value is defined, mirroring the pd.isna guard) and record the
produced indicator row. -/
def initialize_step (st : EngineState) (close : ℚ) : EngineState × IndRow :=
  let rsiRes := rsi_update st.rsi close
  let ma50Res :=
    match rsiRes.2 with
    | none => (st.rsi_ma50, none)
    | some v => sma_update st.rsi_ma50 v
  let r2 := ma_update st.ma2 close
  let r7 := ma_update st.ma7 close
  let r14 := ma_update st.ma14 close
  let r50 := ma_update st.ma50 close
  let r100 := ma_update st.ma100 close
  let r200 := ma_update st.ma200 close
  let r350 := ma_update st.ma350 close
  let r500 := ma_update st.ma500 close
  let fibRes := fib_update st.fibonacci close
  ({ st with rsi := rsiRes.1, rsi_ma50 := ma50Res.1
             ma2 := r2.1, ma7 := r7.1, ma14 := r14.1, ma50 := r50.1
             ma100 := r100.1, ma200 := r200.1, ma350 := r350.1
             ma500 := r500.1, fibonacci := fibRes.1 },
   { rsi := rsiRes.2, rsi_ma50 := ma50Res.2
     short002 := r2.2, short007 := r7.2, short21 := r14.2, short50 := r50.2
     long100 := r100.2, long200 := r200.2, long350 := r350.2
     long500 := r500.2, fib := fibRes.2 })

/-- The replay loop of initialize_from_history over the historical rows
in order. -/
def initialize_rows (st : EngineState) : List Bar → EngineState × List IndRow
  | [] => (st, [])
  | b :: bs =>
    let res := initialize_step st b.close_
    let rest := initialize_rows res.1 bs
    (rest.1, res.2 :: rest.2)

/-- StatefulIndicatorEngine.initialize_from_history: empty history is
rejected; otherwise every row is replayed in order, the engine is
marked initialized, and the last processed time becomes the last row's
open time.  Returns the indicator rows and the source's Bool result. -/
def initialize_from_history (st : EngineState) (bars : List Bar) :
    EngineState × List IndRow × Bool :=
  if bars = [] then (st, [], false)
  else
    let folded := initialize_rows st bars
    ({ folded.1 with initialized := true
                     last_processed_time := (bars.getLast?).map Bar.open_time },
     folded.2, true)

/-- Loop body of process_new_data for one new row: rows at or before the
last processed time are skipped; otherwise the identical per-row
indicator computation runs and the last processed time advances. -/
def process_step (st : EngineState) (b : Bar) : EngineState × Option IndRow :=
  let skip : Bool :=
    match st.last_processed_time with
    | some t => decide (b.open_time ≤ t)
    | none => false
  if skip then (st, none)
  else
    let rsiRes := rsi_update st.rsi b.close_
    let ma50Res :=
      match rsiRes.2 with
      | none => (st.rsi_ma50, none)
      | some v => sma_update st.rsi_ma50 v
    let r2 := ma_update st.ma2 b.close_
    let r7 := ma_update st.ma7 b.close_
    let r14 := ma_update st.ma14 b.close_
    let r50 := ma_update st.ma50 b.close_
    let r100 := ma_update st.ma100 b.close_
    let r200 := ma_update st.ma200 b.close_
    let r350 := ma_update st.ma350 b.close_
    let r500 := ma_update st.ma500 b.close_
    let fibRes := fib_update st.fibonacci b.close_
    ({ st with rsi := rsiRes.1, rsi_ma50 := ma50Res.1
               ma2 := r2.1, ma7 := r7.1, ma14 := r14.1, ma50 := r50.1
               ma100 := r100.1, ma200 := r200.1, ma350 := r350.1
               ma500 := r500.1, fibonacci := fibRes.1
               last_processed_time := some b.open_time },
     some { rsi := rsiRes.2, rsi_ma50 := ma50Res.2
            short002 := r2.2, short007 := r7.2, short21 := r14.2
            short50 := r50.2, long100 := r100.2, long200 := r200.2
            long350 := r350.2, long500 := r500.2, fib := fibRes.2 })

/-- The row loop of process_new_data. -/
def process_rows (st : EngineState) : List Bar → EngineState × List IndRow
  | [] => (st, [])
  | b :: bs =>
    let res := process_step st b
    let rest := process_rows res.1 bs
    (rest.1, res.2.toList ++ rest.2)

/-- StatefulIndicatorEngine.process_new_data: a no-op on an engine that
was never initialized or on empty input; otherwise processes each row
through the skip check and the incremental update.  The Bool result is
the source's "any new data" flag. -/
def process_new_data (st : EngineState) (bars : List Bar) :
    EngineState × List IndRow × Bool :=
  if st.initialized = false ∨ bars = [] then (st, [], false)
  else
    let folded := process_rows st bars
    (folded.1, folded.2, !folded.2.isEmpty)

/-! ## Specification-side helpers used in the theorem statements -/

/-- The `n` most recent elements of a list. -/
def lastN (n : ℕ) (xs : List ℚ) : List ℚ := xs.drop (xs.length - n)

/-- The data collected by the chunked backfill loop over the window
`[last + 1000, now - 2000]` (the same call gap_fill_core makes). -/
def gap_collected (now : ℤ) (fetch : ℤ → ℤ → List Kline) (last : ℤ) :
    List Kline :=
  (gapChunkLoop fetch (now - 2000)
    ((now - 2000 - (last + 1000)).toNat + 1) (last + 1000)).2

/-- The last-processed open time after handling a bar list, with a
default for the empty list. -/
def lastTime (dflt : Option ℤ) (bars : List Bar) : Option ℤ :=
  match bars.getLast? with
  | some b => some b.open_time
  | none => dflt

/-- Claim-side formula: the simple mean of the first 14 upward price
changes of a seed window (downward changes counting as zero gain). -/
def rsiSeedGain (ps : List ℚ) : ℚ :=
  (((List.zipWith (fun a b => a - b) ps.tail ps).map
      (fun c => if 0 ≤ c then c else 0)).take 14).sum / 14

/-- Claim-side formula: the simple mean of the first 14 downward price
changes of a seed window (upward changes counting as zero loss). -/
def rsiSeedLoss (ps : List ℚ) : ℚ :=
  (((List.zipWith (fun a b => a - b) ps.tail ps).map
      (fun c => if c < 0 then -c else 0)).take 14).sum / 14

/-- Claim-side formula: Wilder's RSI value with its two edge cases,
zero average loss taking precedence. -/
def rsiValue (ag al : ℚ) : ℚ :=
  if al = 0 then 100 else if ag = 0 then 0 else 100 - 100 / (1 + ag / al)

/-! ## Auxiliary lemmas -/

theorem lastN_of_le {n : ℕ} {xs : List ℚ} (h : xs.length ≤ n) :
    lastN n xs = xs := by
  simp [lastN, Nat.sub_eq_zero_of_le h]

theorem dequeAppend_eq_lastN (L : ℕ) (s : List ℚ) (x : ℚ) :
    dequeAppend L s x = lastN L (s ++ [x]) := by
  simp only [dequeAppend, lastN]
  split
  · rfl
  · next h => rw [Nat.sub_eq_zero_of_le (Nat.le_of_not_lt h), List.drop_zero]

theorem lastN_append_lastN (L : ℕ) (u v : List ℚ) :
    lastN L (lastN L u ++ v) = lastN L (u ++ v) := by
  rcases Nat.le_total u.length L with h | h
  · rw [lastN_of_le h]
  · simp only [lastN, List.length_append, List.length_drop,
      List.drop_append_eq_append_drop, List.drop_drop]
    congr 1
    · congr 1
      omega
    · congr 1
      omega

theorem lastN_length (n : ℕ) (xs : List ℚ) :
    (lastN n xs).length = xs.length - (xs.length - n) := by
  simp [lastN]

theorem ma_run_get :
    ∀ (xs : List ℚ) (L : ℕ) (s : List ℚ) (bflag : Bool) (i : ℕ),
      i < xs.length →
      (ma_run ⟨L, s, bflag⟩ xs).2.get? i =
        some (if (lastN L (s ++ xs.take (i+1))).length < L then none
              else some ((lastN L (s ++ xs.take (i+1))).sum /
                         ((lastN L (s ++ xs.take (i+1))).length : ℚ)))
  | [], _, _, _, i, h => by simp at h
  | x :: xs, L, s, bflag, 0, _ => by
    simp only [ma_run, ma_update, dequeAppend_eq_lastN, List.take_succ_cons,
      List.take_zero, List.get?_cons_zero]
    split
    · rfl
    · rfl
  | x :: xs, L, s, bflag, i + 1, h => by
    have hx : i < xs.length := by simpa using Nat.lt_of_succ_lt_succ h
    simp only [ma_run, List.get?_cons_succ]
    have hstep : (ma_update ⟨L, s, bflag⟩ x).1 =
        ⟨L, lastN L (s ++ [x]), (ma_update ⟨L, s, bflag⟩ x).1.initialized⟩ := by
      simp only [ma_update, dequeAppend_eq_lastN]
      split <;> rfl
    rw [hstep, ma_run_get xs L (lastN L (s ++ [x]))
      (ma_update ⟨L, s, bflag⟩ x).1.initialized i hx,
      lastN_append_lastN, List.append_assoc]
    rfl

theorem dequeAppend_of_le (L : ℕ) (s : List ℚ) (x : ℚ)
    (h : s.length + 1 ≤ L) : dequeAppend L s x = s ++ [x] := by
  simp only [dequeAppend]
  rw [if_neg]
  simp only [List.length_append, List.length_singleton]
  omega

theorem rsi_seed (g l p : Option ℚ) :
    ∀ (post pre : List ℚ), pre.length + post.length ≤ 14 →
      rsi_run ⟨14, g, l, p, false, pre⟩ post =
        (⟨14, g, l, p, false, pre ++ post⟩, List.replicate post.length none)
  | [], pre, _ => by simp [rsi_run]
  | x :: post, pre, h => by
    have h' : pre.length + (post.length + 1) ≤ 14 := by simpa using h
    have hlen : pre.length + 1 ≤ 15 := by omega
    have hupd : rsi_update ⟨14, g, l, p, false, pre⟩ x =
        (⟨14, g, l, p, false, pre ++ [x]⟩, none) := by
      simp only [rsi_update, dequeAppend_of_le 15 pre x hlen]
      rw [if_pos trivial, if_neg]
      simp only [List.length_append, List.length_singleton]
      omega
    have hrest := rsi_seed g l p post (pre ++ [x])
      (by simp only [List.length_append, List.length_singleton]; omega)
    simp only [rsi_run, hupd, hrest, List.length_cons, List.append_assoc,
      List.singleton_append, List.replicate_succ]

theorem rsi_run_append (st : RSIState) (as bs : List ℚ) :
    rsi_run st (as ++ bs) =
      ((rsi_run (rsi_run st as).1 bs).1,
       (rsi_run st as).2 ++ (rsi_run (rsi_run st as).1 bs).2) := by
  induction as generalizing st with
  | nil => simp [rsi_run]
  | cons a as ih => simp [rsi_run, ih]

theorem rsi_run_15 (ps : List ℚ) (h : ps.length = 15) :
    rsi_run (freshRSI 14) ps =
      (⟨14, some (rsiSeedGain ps), some (rsiSeedLoss ps), ps.getLast?, true, ps⟩,
       List.replicate 14 none ++
         [some (rsiValue (rsiSeedGain ps) (rsiSeedLoss ps))]) := by
  rcases List.eq_nil_or_concat ps with rfl | ⟨qs, x, hps⟩
  · simp at h
  · rw [List.concat_eq_append] at hps
    subst hps
    have hq : qs.length = 14 := by
      simp only [List.length_append, List.length_singleton] at h
      omega
    have hfresh : freshRSI 14 = ⟨14, none, none, none, false, []⟩ := rfl
    rw [hfresh, rsi_run_append]
    have hseed := rsi_seed none none none qs [] (by simp [hq])
    simp only [List.nil_append] at hseed
    rw [hseed]
    have hupd : rsi_update ⟨14, none, none, none, false, qs⟩ x =
        rsi_init_seed ⟨14, none, none, none, false, qs ++ [x]⟩ (qs ++ [x]) := by
      simp only [rsi_update, dequeAppend_of_le 15 qs x (by omega)]
      rw [if_pos trivial, if_pos]
      simp only [List.length_append, List.length_singleton]
      omega
    have hinit : rsi_init_seed ⟨14, none, none, none, false, qs ++ [x]⟩
        (qs ++ [x]) =
        (⟨14, some (rsiSeedGain (qs ++ [x])), some (rsiSeedLoss (qs ++ [x])),
          (qs ++ [x]).getLast?, true, qs ++ [x]⟩,
         some (rsiValue (rsiSeedGain (qs ++ [x])) (rsiSeedLoss (qs ++ [x])))) := by
      simp only [rsi_init_seed]
      rw [if_neg (by simp only [List.length_append, List.length_singleton]; omega)]
      simp only [rsiValue, rsiSeedGain, rsiSeedLoss]
      norm_num
      split_ifs <;> rfl
    have hsingle : rsi_run ⟨14, none, none, none, false, qs⟩ [x] =
        ((rsi_update ⟨14, none, none, none, false, qs⟩ x).1,
         [(rsi_update ⟨14, none, none, none, false, qs⟩ x).2]) := by
      simp [rsi_run]
    rw [hsingle, hupd, hinit, hq]

theorem zipWith_sub_replicate (c : ℚ) :
    ∀ (n m : ℕ),
      List.zipWith (fun a b => a - b) (List.replicate n c) (List.replicate m c) =
        List.replicate (min n m) 0
  | 0, m => by simp
  | n + 1, 0 => by simp
  | n + 1, m + 1 => by
    simp only [List.replicate_succ, List.zipWith_cons_cons, sub_self,
      zipWith_sub_replicate c n m, Nat.succ_min_succ]

theorem rsiSeedGain_replicate (c : ℚ) : rsiSeedGain (List.replicate 15 c) = 0 := by
  have ht : (List.replicate 15 c).tail = List.replicate 14 c := rfl
  simp [rsiSeedGain, ht, zipWith_sub_replicate, List.take_replicate,
    List.sum_replicate]

theorem rsiSeedLoss_replicate (c : ℚ) : rsiSeedLoss (List.replicate 15 c) = 0 := by
  have ht : (List.replicate 15 c).tail = List.replicate 14 c := rfl
  simp [rsiSeedLoss, ht, zipWith_sub_replicate, List.take_replicate,
    List.sum_replicate]

theorem getLast?_replicate_pos (c : ℚ) :
    ∀ n, 0 < n → (List.replicate n c).getLast? = some c
  | 0, h => absurd h (by omega)
  | 1, _ => rfl
  | n + 2, _ => by
    rw [List.replicate_succ, List.replicate_succ, List.getLast?_cons_cons,
      ← List.replicate_succ]
    exact getLast?_replicate_pos c (n + 1) (by omega)

theorem rsi_run_const (c : ℚ) (P : List ℚ) :
    ∀ n, rsi_run ⟨14, some 0, some 0, some c, true, P⟩ (List.replicate n c) =
      (⟨14, some 0, some 0, some c, true, P⟩, List.replicate n (some 100))
  | 0 => by simp [rsi_run]
  | n + 1 => by
    have hupd : rsi_update ⟨14, some 0, some 0, some c, true, P⟩ c =
        (⟨14, some 0, some 0, some c, true, P⟩, some 100) := by
      simp [rsi_update]
    simp only [List.replicate_succ, rsi_run, hupd, rsi_run_const c P n]

theorem process_kline_good (rs : ℚ) (k : Kline) (st : AggState)
    (hk : WFKline k) (hst : GoodState st) :
    GoodState (process_kline_into_bar rs k st).2 ∧
    ∀ b ∈ (process_kline_into_bar rs k st).1, rs ≤ b.high - b.low := by
  obtain ⟨hk1, hk2⟩ := hk
  cases hcb : st.current_bar with
  | none =>
    simp only [process_kline_into_bar, hcb]
    constructor
    · intro cb hmem
      simp only [Option.mem_def, Option.some_inj] at hmem
      subst hmem
      exact ⟨le_trans hk1 (le_refl _), hk2⟩
    · intro b hb
      simp at hb
  | some cb =>
    have hgb : GoodBar cb := hst cb (by simp [hcb])
    simp only [process_kline_into_bar, hcb]
    by_cases hcomp :
        check_range_completion rs (max cb.high k.high) (min cb.low k.low) = true
    · rw [if_pos hcomp]
      constructor
      · intro cb' hmem
        simp only [Option.mem_def, Option.some_inj] at hmem
        subst hmem
        exact ⟨le_refl _, le_refl _⟩
      · intro b hb
        simp only [Option.mem_def, Option.some_inj] at hb
        subst hb
        simp only [create_completed_bar]
        simpa [check_range_completion] using hcomp
    · rw [if_neg hcomp]
      constructor
      · intro cb' hmem
        simp only [Option.mem_def, Option.some_inj] at hmem
        subst hmem
        exact ⟨le_trans (min_le_left _ _) hgb.1,
               le_trans hgb.2 (le_max_left _ _)⟩
      · intro b hb
        simp at hb

theorem handle_jump_good (rs price : ℚ) (ts : ℤ) (k : Kline) (st : AggState)
    (hst : GoodState st) :
    GoodState (handle_large_price_jump rs price ts k st).2 ∧
    ∀ b ∈ (handle_large_price_jump rs price ts k st).1,
      rs ≤ b.high - b.low := by
  cases hcb : st.current_bar with
  | none =>
    simp only [handle_large_price_jump, hcb]
    exact ⟨hst, by simp⟩
  | some cb =>
    have hgb : GoodBar cb := hst cb (by simp [hcb])
    simp only [handle_large_price_jump, hcb]
    by_cases hpb : (2:ℤ) ≤ ⌊|price - cb.open_price| / rs⌋
    · rw [if_pos hpb]
      by_cases hdir : cb.open_price < price
      · simp only [if_pos hdir]
        by_cases hrem : rs ≤ |price - (cb.open_price + rs)|
        · simp only [if_pos hrem]
          by_cases hadd : cb.open_price + rs < price
          · simp only [if_pos hadd]
            refine ⟨?_, ?_⟩
            · intro cb' hmem
              simp only [Option.mem_def, Option.some_inj] at hmem
              subst hmem
              exact ⟨le_refl _, le_refl _⟩
            · intro b hb
              simp only [List.mem_cons, List.not_mem_nil, or_false] at hb
              rcases hb with rfl | rfl
              · simp only [create_completed_bar]
                linarith [hgb.1]
              · simp only [create_completed_bar]
                rw [abs_of_pos (sub_pos.mpr hadd)] at hrem
                linarith
          · simp only [if_neg hadd]
            refine ⟨?_, ?_⟩
            · intro cb' hmem
              simp only [Option.mem_def, Option.some_inj] at hmem
              subst hmem
              exact ⟨le_refl _, le_refl _⟩
            · intro b hb
              simp only [List.mem_cons, List.not_mem_nil, or_false] at hb
              rcases hb with rfl | rfl
              · simp only [create_completed_bar]
                linarith [hgb.1]
              · simp only [create_completed_bar]
                rw [abs_of_nonpos (sub_nonpos.mpr (le_of_not_lt hadd))] at hrem
                linarith
        · simp only [if_neg hrem]
          refine ⟨?_, ?_⟩
          · intro cb' hmem
            simp only [Option.mem_def, Option.some_inj] at hmem
            subst hmem
            exact ⟨min_le_left _ _, le_max_left _ _⟩
          · intro b hb
            simp only [List.mem_singleton] at hb
            subst hb
            simp only [create_completed_bar]
            linarith [hgb.1]
      · simp only [if_neg hdir]
        by_cases hrem : rs ≤ |price - (cb.open_price - rs)|
        · simp only [if_pos hrem]
          by_cases hadd : cb.open_price - rs < price
          · simp only [if_pos hadd]
            refine ⟨?_, ?_⟩
            · intro cb' hmem
              simp only [Option.mem_def, Option.some_inj] at hmem
              subst hmem
              exact ⟨le_refl _, le_refl _⟩
            · intro b hb
              simp only [List.mem_cons, List.not_mem_nil, or_false] at hb
              rcases hb with rfl | rfl
              · simp only [create_completed_bar]
                linarith [hgb.2]
              · simp only [create_completed_bar]
                rw [abs_of_pos (sub_pos.mpr hadd)] at hrem
                linarith
          · simp only [if_neg hadd]
            refine ⟨?_, ?_⟩
            · intro cb' hmem
              simp only [Option.mem_def, Option.some_inj] at hmem
              subst hmem
              exact ⟨le_refl _, le_refl _⟩
            · intro b hb
              simp only [List.mem_cons, List.not_mem_nil, or_false] at hb
              rcases hb with rfl | rfl
              · simp only [create_completed_bar]
                linarith [hgb.2]
              · simp only [create_completed_bar]
                rw [abs_of_nonpos (sub_nonpos.mpr (le_of_not_lt hadd))] at hrem
                linarith
        · simp only [if_neg hrem]
          refine ⟨?_, ?_⟩
          · intro cb' hmem
            simp only [Option.mem_def, Option.some_inj] at hmem
            subst hmem
            exact ⟨min_le_left _ _, le_max_left _ _⟩
          · intro b hb
            simp only [List.mem_singleton] at hb
            subst hb
            simp only [create_completed_bar]
            linarith [hgb.2]
    · rw [if_neg hpb]
      exact ⟨hst, by simp⟩

theorem range_bar_step_good (rs : ℚ) (k : Kline) (st : AggState)
    (hk : WFKline k) (hst : GoodState st) :
    GoodState (range_bar_step rs st k).2 ∧
    ∀ b ∈ (range_bar_step rs st k).1, rs ≤ b.high - b.low := by
  cases hcb : st.current_bar with
  | none =>
    simp only [range_bar_step, hcb]
    have hp := process_kline_good rs k st hk hst
    exact ⟨hp.1, fun b hb => hp.2 b (by simpa using hb)⟩
  | some cb =>
    simp only [range_bar_step, hcb]
    by_cases hpb : (2:ℤ) ≤ ⌊|k.close_ - cb.open_price| / rs⌋
    · rw [if_pos hpb]
      have hj := handle_jump_good rs k.close_ k.close_time k st hst
      by_cases hemp :
          (handle_large_price_jump rs k.close_ k.close_time k st).1 = []
      · rw [if_pos hemp]
        have hp := process_kline_good rs k
          (handle_large_price_jump rs k.close_ k.close_time k st).2 hk hj.1
        exact ⟨hp.1, fun b hb => hp.2 b (by simpa using hb)⟩
      · rw [if_neg hemp]
        exact hj
    · rw [if_neg hpb]
      have hp := process_kline_good rs k st hk hst
      exact ⟨hp.1, fun b hb => hp.2 b (by simpa using hb)⟩

theorem create_range_bars_good (rs : ℚ) :
    ∀ (ks : List Kline) (st : AggState),
      (∀ k ∈ ks, WFKline k) → GoodState st →
      GoodState (create_range_bar_from_klines rs ks st).2 ∧
      ∀ b ∈ (create_range_bar_from_klines rs ks st).1, rs ≤ b.high - b.low
  | [], st, _, hst => ⟨hst, by simp [create_range_bar_from_klines]⟩
  | k :: ks, st, hwf, hst => by
    have hstep := range_bar_step_good rs k st (hwf k (by simp)) hst
    have hrest := create_range_bars_good rs ks (range_bar_step rs st k).2
      (fun k' hk' => hwf k' (by simp [hk'])) hstep.1
    refine ⟨by simpa [create_range_bar_from_klines] using hrest.1, ?_⟩
    intro b hb
    simp only [create_range_bar_from_klines, List.mem_append] at hb
    rcases hb with hb | hb
    · exact hstep.2 b hb
    · exact hrest.2 b hb

theorem handle_jump_taker (rs price : ℚ) (ts : ℤ) (k : Kline) (st : AggState) :
    ∀ b ∈ (handle_large_price_jump rs price ts k st).1,
      b.taker_buy_base = b.volume * (1/2) ∧
      b.taker_buy_quote = b.quote_asset_volume * (1/2) := by
  cases hcb : st.current_bar with
  | none => simp [handle_large_price_jump, hcb]
  | some cb =>
    simp only [handle_large_price_jump, hcb]
    intro b hb
    split_ifs at hb <;>
      simp only [List.mem_cons, List.mem_singleton, List.not_mem_nil,
        or_false] at hb
    all_goals rcases hb with rfl | rfl <;> exact ⟨rfl, rfl⟩

theorem process_kline_taker (rs : ℚ) (k : Kline) (st : AggState) :
    ∀ b ∈ (process_kline_into_bar rs k st).1,
      b.taker_buy_base = b.volume * (1/2) ∧
      b.taker_buy_quote = b.quote_asset_volume * (1/2) := by
  cases hcb : st.current_bar with
  | none => simp [process_kline_into_bar, hcb]
  | some cb =>
    simp only [process_kline_into_bar, hcb]
    intro b hb
    split_ifs at hb
    · simp only [Option.mem_def, Option.some_inj] at hb
      subst hb
      exact ⟨rfl, rfl⟩
    · simp at hb

theorem range_bar_step_taker (rs : ℚ) (k : Kline) (st : AggState) :
    ∀ b ∈ (range_bar_step rs st k).1,
      b.taker_buy_base = b.volume * (1/2) ∧
      b.taker_buy_quote = b.quote_asset_volume * (1/2) := by
  cases hcb : st.current_bar with
  | none =>
    simp only [range_bar_step, hcb]
    intro b hb
    exact process_kline_taker rs k st b (by simpa using hb)
  | some cb =>
    simp only [range_bar_step, hcb]
    intro b hb
    split_ifs at hb
    · exact process_kline_taker rs k _ b (by simpa using hb)
    · exact handle_jump_taker rs k.close_ k.close_time k st b hb
    · exact process_kline_taker rs k st b (by simpa using hb)

theorem two_kline_run_eval :
    create_range_bar_from_klines 1
      [⟨0, 0, 0, 0, 0, 0, 0, 1, 2, 3⟩, ⟨1, 1, 1, 1, 1, 0, 1, 1, 2, 3⟩]
      ⟨none, []⟩ =
      ([⟨0, 0, 1, 0, 1, 2, 1, 4, 6, 1, 2, 0⟩],
       ⟨some ⟨1, 1, 1, 1, 1, 1⟩, []⟩) := by
  norm_num [create_range_bar_from_klines, range_bar_step,
    process_kline_into_bar, handle_large_price_jump, check_range_completion,
    create_completed_bar]

theorem jump_15_run_eval :
    create_range_bar_from_klines 1
      [⟨1, 1, 1, 3/2, 3/2, 3/2, 3/2, 0, 0, 0⟩]
      ⟨some ⟨0, 0, 0, 0, 0, 0⟩, []⟩ =
      ([⟨0, 0, 3/2, 0, 3/2, 0, 1, 0, 0, 0, 0, 0⟩],
       ⟨some ⟨3/2, 3/2, 3/2, 3/2, 1, 1⟩, []⟩) := by
  have hc : ¬ ((2:ℤ) ≤ ⌊|(3:ℚ)/2 - 0| / 1⌋) := by
    rw [show |(3:ℚ)/2 - 0| = 3/2 by norm_num [abs_of_nonneg]]
    norm_num
  simp only [create_range_bar_from_klines, range_bar_step,
    process_kline_into_bar, handle_large_price_jump, check_range_completion,
    create_completed_bar]
  rw [if_neg hc]
  norm_num

theorem jump_2r_eval (O r : ℚ) (hr : 0 < r) :
    create_range_bar_from_klines r
      [⟨1, 1, 1, O + 2*r, O + 2*r, O + 2*r, O + 2*r, 0, 0, 0⟩]
      ⟨some ⟨O, O, O, O, 0, 0⟩, []⟩ =
      ([⟨0, O, O + r, O, O + r, 0, 1, 0, 0, 0, 0, 0⟩,
        ⟨1, O + r, O + 2*r, O + r, O + 2*r, 0, 1, 0, 0, 0, 0, 0⟩],
       ⟨some ⟨O + 2*r, O + 2*r, O + 2*r, O + 2*r, 1, 1⟩, []⟩) := by
  have hr' : r ≠ 0 := ne_of_gt hr
  have habs : |(O + 2*r) - O| = 2*r := by
    rw [show (O + 2*r) - O = 2*r from by ring]
    exact abs_of_pos (by linarith)
  have hdiv : (2*r) / r = 2 := by rw [mul_div_assoc, div_self hr', mul_one]
  have hpb : (2:ℤ) ≤ ⌊|(O + 2*r) - O| / r⌋ := by
    rw [habs, hdiv]
    norm_num
  have hdir : O < O + 2*r := by linarith
  have hrem : r ≤ |(O + 2*r) - (O + r)| := by
    rw [show (O + 2*r) - (O + r) = r from by ring, abs_of_pos hr]
  have hadd : O + r < O + 2*r := by linarith
  simp only [create_range_bar_from_klines, range_bar_step,
    handle_large_price_jump, create_completed_bar]
  simp only [if_pos hpb, if_pos hdir, if_pos hrem, if_pos hadd,
    if_neg (List.cons_ne_nil _ _)]
  norm_num

theorem jump_15r_eval (O r : ℚ) (hr : 0 < r) :
    create_range_bar_from_klines r
      [⟨1, 1, 1, O + 3/2*r, O + 3/2*r, O + 3/2*r, O + 3/2*r, 0, 0, 0⟩]
      ⟨some ⟨O, O, O, O, 0, 0⟩, []⟩ =
      ([⟨0, O, O + 3/2*r, O, O + 3/2*r, 0, 1, 0, 0, 0, 0, 0⟩],
       ⟨some ⟨O + 3/2*r, O + 3/2*r, O + 3/2*r, O + 3/2*r, 1, 1⟩, []⟩) := by
  have hr' : r ≠ 0 := ne_of_gt hr
  have habs : |(O + 3/2*r) - O| = 3/2*r := by
    rw [show (O + 3/2*r) - O = 3/2*r from by ring]
    exact abs_of_pos (by linarith)
  have hdiv : (3/2*r) / r = 3/2 := by rw [mul_div_assoc, div_self hr', mul_one]
  have hpb : ¬ ((2:ℤ) ≤ ⌊|(O + 3/2*r) - O| / r⌋) := by
    rw [habs, hdiv]
    norm_num
  have hmax : max O (O + 3/2*r) = O + 3/2*r := max_eq_right (by linarith)
  have hmin : min O (O + 3/2*r) = O := min_eq_left (by linarith)
  have hcheck : check_range_completion r (O + 3/2*r) O = true := by
    simp only [check_range_completion, decide_eq_true_eq]
    linarith
  simp only [create_range_bar_from_klines, range_bar_step,
    process_kline_into_bar, create_completed_bar]
  simp only [if_neg hpb, hmax, hmin, if_pos hcheck]
  norm_num

theorem gapstate_clear_flag (st : GapState)
    (h : st.ws_reconnection_detected = false) :
    { st with ws_reconnection_detected := false } = st := by
  cases st
  simp_all

theorem check_eq_core (now : ℤ) (fetch : ℤ → ℤ → List Kline) (st : GapState)
    (last : ℤ)
    (h1 : st.prefetch_completed = true)
    (h2 : st.gap_filling_in_progress = false)
    (h3 : st.data_gap_filling = false)
    (h4 : debounce_ok now st = true)
    (h5 : st.last_successful_ws_update = some last)
    (h6 : gap_triggered now last st = true) :
    check_for_data_gaps now fetch st =
      gap_fill_core now fetch { st with ws_reconnection_detected := false }
        last := by
  have htrig : st.ws_reconnection_detected = true ∨
      (300000 < now - last ∨ 0 < st.gap_fill_retry_count) := by
    simp only [gap_triggered, Bool.or_eq_true, decide_eq_true_eq] at h6
    tauto
  unfold check_for_data_gaps
  rw [if_neg (by simp [h1, h2, h3])]
  cases hlg : st.last_gap_fill_time with
  | some t =>
    have hdb : ¬ (now - t < 10000) := by
      have h4' := h4
      unfold debounce_ok at h4'
      rw [hlg] at h4'
      simpa using h4'
    simp only [hlg, h5]
    rw [if_neg hdb]
    by_cases hflag : st.ws_reconnection_detected = true
    · rw [if_pos hflag]
    · rcases htrig with hx | hs | hr
      · exact absurd hx hflag
      · rw [if_neg hflag, if_pos hs]
        congr 1
        cases st
        simp_all
      · by_cases hs2 : 300000 < now - last
        · rw [if_neg hflag, if_pos hs2]
          congr 1
          cases st
          simp_all
        · rw [if_neg hflag, if_neg hs2, if_pos hr]
          congr 1
          cases st
          simp_all
  | none =>
    simp only [hlg, h5]
    by_cases hflag : st.ws_reconnection_detected = true
    · rw [if_pos hflag]
    · rcases htrig with hx | hs | hr
      · exact absurd hx hflag
      · rw [if_neg hflag, if_pos hs]
        congr 1
        cases st
        simp_all
      · by_cases hs2 : 300000 < now - last
        · rw [if_neg hflag, if_pos hs2]
          congr 1
          cases st
          simp_all
        · rw [if_neg hflag, if_neg hs2, if_pos hr]
          congr 1
          cases st
          simp_all

theorem gapChunkLoop_stop (fetch : ℤ → ℤ → List Kline) (e : ℤ) (fuel : ℕ)
    (c : ℤ) (h : ¬ c < e) : gapChunkLoop fetch e fuel c = ([], []) := by
  cases fuel with
  | zero => rfl
  | succ n => simp [gapChunkLoop, h]

theorem gapChunkLoop_head (fetch : ℤ → ℤ → List Kline) (e c : ℤ) (fuel : ℕ)
    (h1 : c < e) :
    ((gapChunkLoop fetch e (fuel + 1) c).1).head? =
      some (c, min (c + 1000000) e) := by
  simp [gapChunkLoop, if_pos h1]

theorem gapChunkLoop_single (fetch : ℤ → ℤ → List Kline) (e c : ℤ) (fuel : ℕ)
    (h1 : c < e) (h2 : e ≤ c + 1000000) :
    gapChunkLoop fetch e (fuel + 1) c =
      ([(c, e)],
       if (fetch c e).isEmpty then [] else sortByTimestamp (fetch c e)) := by
  simp only [gapChunkLoop, if_pos h1, min_eq_right h2,
    gapChunkLoop_stop fetch e fuel (e + 1) (by omega)]
  simp

theorem initialize_rows_config (bars : List Bar) :
    ∀ (st : EngineState) (i : Bool) (l : Option ℤ),
      initialize_rows
          { st with initialized := i, last_processed_time := l } bars =
        ({ (initialize_rows st bars).1 with
            initialized := i, last_processed_time := l },
         (initialize_rows st bars).2) := by
  induction bars with
  | nil => intro st i l; rfl
  | cons b bs ih =>
    intro st i l
    simp only [initialize_rows]
    have hstep : initialize_step
        { st with initialized := i, last_processed_time := l } b.close_ =
        ({ (initialize_step st b.close_).1 with
            initialized := i, last_processed_time := l },
         (initialize_step st b.close_).2) := rfl
    rw [hstep]
    rw [ih (initialize_step st b.close_).1 i l]

theorem initialize_rows_fields (bars : List Bar) :
    ∀ st : EngineState,
      ((initialize_rows st bars).1).initialized = st.initialized ∧
      ((initialize_rows st bars).1).last_processed_time =
        st.last_processed_time := by
  induction bars with
  | nil => intro st; exact ⟨rfl, rfl⟩
  | cons b bs ih => intro st; exact ih (initialize_step st b.close_).1

theorem process_step_noskip (st : EngineState) (b : Bar)
    (hskip : (match st.last_processed_time with
              | some t => decide (b.open_time ≤ t)
              | none => false) = false) :
    process_step st b =
      ({ (initialize_step st b.close_).1 with
         last_processed_time := some b.open_time },
       some (initialize_step st b.close_).2) := by
  simp only [process_step, initialize_step, hskip]
  rfl

theorem lastTime_cons (d : Option ℤ) (b : Bar) (bs : List Bar) :
    lastTime d (b :: bs) = lastTime (some b.open_time) bs := by
  cases bs with
  | nil => rfl
  | cons c cs =>
    simp only [lastTime, List.getLast?_cons_cons]
    cases hg : (c :: cs).getLast? with
    | some x => rfl
    | none =>
      have hs : ((c :: cs).getLast?).isSome = true := by
        rw [List.getLast?_isSome]
        simp
      rw [hg] at hs
      simp at hs

theorem process_rows_eq (bars : List Bar) :
    ∀ (st : EngineState) (t0 : ℤ), st.last_processed_time = some t0 →
      List.Chain (fun a b => a < b) t0 (bars.map Bar.open_time) →
      process_rows st bars =
        ({ (initialize_rows st bars).1 with
           last_processed_time := lastTime (some t0) bars },
         (initialize_rows st bars).2) := by
  induction bars with
  | nil =>
    intro st t0 h _
    simp only [process_rows, initialize_rows, lastTime, List.getLast?_nil]
    rw [← h]
  | cons b bs ih =>
    intro st t0 h hch
    cases hch with
    | cons hlt hch' =>
      have hskip : (match st.last_processed_time with
          | some t => decide (b.open_time ≤ t)
          | none => false) = false := by
        rw [h]
        simp only [decide_eq_false_iff_not]
        omega
      rw [List.chain_map] at hch'
      simp only [process_rows, initialize_rows]
      rw [process_step_noskip st b hskip]
      rw [ih { (initialize_step st b.close_).1 with
            last_processed_time := some b.open_time } b.open_time rfl
          (by rw [List.chain_map]; exact hch')]
      rw [initialize_rows_config bs (initialize_step st b.close_).1
          ((initialize_step st b.close_).1).initialized (some b.open_time)]
      rw [lastTime_cons]
      dsimp only
      rw [(initialize_rows_fields bs (initialize_step st b.close_).1).1]
      rfl

/-! ## Claim theorems -/

/-- Claim C8: a fresh moving average of length 7 returns not-a-number
(none) for each of the first 6 values fed to it and, from the 7th value
onward, a defined value equal to the plain arithmetic mean of the 7 most
recent closes. -/
theorem C8_sma7_window (xs : List ℚ) (i : ℕ) (h : i < xs.length) :
    (ma_run (freshMA 7) xs).2.get? i =
      some (if i < 6 then none
            else some ((lastN 7 (xs.take (i+1))).sum / 7)) := by
  have hrun := ma_run_get xs 7 [] false i h
  have hfresh : freshMA 7 = ⟨7, [], false⟩ := rfl
  rw [hfresh, hrun]
  have hlen : (lastN 7 (([] : List ℚ) ++ xs.take (i+1))).length =
      min 7 (i+1) := by
    rw [lastN_length]
    simp only [List.nil_append, List.length_take]
    omega
  by_cases hi : i < 6
  · rw [if_pos, if_pos hi]
    rw [hlen]
    omega
  · rw [if_neg, if_neg hi]
    · rw [hlen]
      have h7 : min 7 (i + 1) = 7 := by omega
      rw [h7]
      norm_num
    · rw [hlen]
      omega

/-- Witness for C8 at a concrete input: the 7th output of a fresh
MA(7). -/
theorem C8_sma7_window_witness :
    (ma_run (freshMA 7) [1, 2, 3, 4, 5, 6, 7]).2.get? 6 =
      some (if 6 < 6 then none
            else some ((lastN 7 (([1, 2, 3, 4, 5, 6, 7] : List ℚ).take 7)).sum / 7)) :=
  C8_sma7_window [1, 2, 3, 4, 5, 6, 7] 6 (by decide)

/-- Claim C7: the RSI(14) calculator produces no value until it has seen
15 seed prices; the 15th price seeds both running averages with simple
means of the gains and losses and yields the first value; thereafter
each price updates both averages by Wilder smoothing at weight 1/14
(`avg ← (13 avg + x) / 14 = avg + (x - avg)/14`), and the returned
value is 100 on zero average loss, 0 on zero average gain, and Wilder's
formula otherwise. -/
theorem C7_rsi_contract :
    (∀ ps : List ℚ, ps.length ≤ 14 →
       (rsi_run (freshRSI 14) ps).2 = List.replicate ps.length none) ∧
    (∀ ps : List ℚ, ps.length = 15 →
       (rsi_run (freshRSI 14) ps).1.previous_avg_gain = some (rsiSeedGain ps) ∧
       (rsi_run (freshRSI 14) ps).1.previous_avg_loss = some (rsiSeedLoss ps) ∧
       (rsi_run (freshRSI 14) ps).1.initialized = true ∧
       (rsi_run (freshRSI 14) ps).2 =
         List.replicate 14 none ++
           [some (rsiValue (rsiSeedGain ps) (rsiSeedLoss ps))]) ∧
    (∀ (st : RSIState) (x g l p : ℚ), st.length = 14 → st.initialized = true →
       st.previous_avg_gain = some g → st.previous_avg_loss = some l →
       st.previous_price = some p →
       (rsi_update st x).1.previous_avg_gain =
         some ((g * 13 + (if 0 < x - p then x - p else 0)) / 14) ∧
       (rsi_update st x).1.previous_avg_loss =
         some ((l * 13 + (if x - p < 0 then -(x - p) else 0)) / 14) ∧
       (rsi_update st x).2 =
         some (rsiValue ((g * 13 + (if 0 < x - p then x - p else 0)) / 14)
                        ((l * 13 + (if x - p < 0 then -(x - p) else 0)) / 14)) ∧
       (g * 13 + (if 0 < x - p then x - p else 0)) / 14 =
         g + ((if 0 < x - p then x - p else 0) - g) * (1 / 14)) := by
  refine ⟨?_, ?_, ?_⟩
  · intro ps hps
    have hfresh : freshRSI 14 = ⟨14, none, none, none, false, []⟩ := rfl
    have hs := rsi_seed none none none ps [] (by simpa using hps)
    rw [hfresh, hs]
  · intro ps hps
    rw [rsi_run_15 ps hps]
    exact ⟨rfl, rfl, rfl, rfl⟩
  · intro st x g l p hL hinit hg hl hp
    have hupd : rsi_update st x =
        ({ st with
            previous_avg_gain :=
              some ((g * 13 + (if 0 < x - p then x - p else 0)) / 14)
            previous_avg_loss :=
              some ((l * 13 + (if x - p < 0 then -(x - p) else 0)) / 14)
            previous_price := some x },
         some (rsiValue ((g * 13 + (if 0 < x - p then x - p else 0)) / 14)
                        ((l * 13 + (if x - p < 0 then -(x - p) else 0)) / 14))) := by
      simp only [rsi_update, rsiValue, hinit, hg, hl, hp, hL]
      norm_num
      split_ifs <;> rfl
    rw [hupd]
    exact ⟨rfl, rfl, rfl, by ring⟩

/-- Witness for C7 at concrete inputs: three seed prices give no value,
a full 15-price seed gives the first value, and one Wilder step from an
initialized state. -/
theorem C7_rsi_contract_witness :
    ((rsi_run (freshRSI 14) [1, 2, 3]).2 = List.replicate 3 none) ∧
    ((rsi_run (freshRSI 14) (List.replicate 15 (5:ℚ))).2 =
       List.replicate 14 none ++
         [some (rsiValue (rsiSeedGain (List.replicate 15 (5:ℚ)))
                         (rsiSeedLoss (List.replicate 15 (5:ℚ))))]) ∧
    ((rsi_update ⟨14, some 1, some 2, some 3, true, []⟩ 10).2 =
       some (rsiValue ((1 * 13 + (if 0 < (10:ℚ) - 3 then (10:ℚ) - 3 else 0)) / 14)
                      ((2 * 13 + (if (10:ℚ) - 3 < 0 then -((10:ℚ) - 3) else 0)) / 14))) :=
  ⟨C7_rsi_contract.1 [1, 2, 3] (by decide),
   (C7_rsi_contract.2.1 (List.replicate 15 (5:ℚ)) (by decide)).2.2.2,
   (C7_rsi_contract.2.2 ⟨14, some 1, some 2, some 3, true, []⟩ 10 1 2 3
     rfl rfl rfl rfl rfl).2.2.1⟩

/-- Claim C10: when the RSI's average gain and average loss are both
zero (identical seed prices and identical subsequent prices), the
calculator returns exactly 100 and never 0: the zero-average-loss
branch is tested before the zero-average-gain branch. -/
theorem C10_rsi_both_zero_gives_100 :
    (∀ (n : ℕ) (c : ℚ),
       (rsi_run (freshRSI 14) (List.replicate (15 + n) c)).2 =
         List.replicate 14 none ++ List.replicate (n + 1) (some 100)) ∧
    (∀ (st : RSIState) (x : ℚ), st.initialized = true →
       st.previous_avg_gain = some 0 → st.previous_avg_loss = some 0 →
       st.previous_price = some x → (rsi_update st x).2 = some 100) := by
  constructor
  · intro n c
    rw [List.replicate_add, rsi_run_append,
      rsi_run_15 (List.replicate 15 c) (by simp)]
    simp only [rsiSeedGain_replicate, rsiSeedLoss_replicate,
      getLast?_replicate_pos c 15 (by omega)]
    rw [rsi_run_const c (List.replicate 15 c) n]
    have hv : rsiValue 0 0 = 100 := by simp [rsiValue]
    rw [hv, List.append_assoc, List.singleton_append, ← List.replicate_succ]
  · intro st x hinit hg hl hp
    simp [rsi_update, hinit, hg, hl, hp]

/-- Witness for C10 at concrete inputs: fifteen equal prices and one
further equal price on a both-averages-zero state. -/
theorem C10_rsi_both_zero_gives_100_witness :
    ((rsi_run (freshRSI 14) (List.replicate 15 (7:ℚ))).2 =
       List.replicate 14 none ++ List.replicate 1 (some 100)) ∧
    ((rsi_update ⟨14, some 0, some 0, some 5, true, []⟩ 5).2 = some 100) :=
  ⟨C10_rsi_both_zero_gives_100.1 0 7,
   C10_rsi_both_zero_gives_100.2 ⟨14, some 0, some 0, some 5, true, []⟩ 5
     rfl rfl rfl rfl⟩

/-- Counterexample to C2 as stated: process_new_data on a fresh (never
initialized) engine instance is a guarded no-op (`if not
self.initialized ... return False`), so feeding one bar incrementally
to a fresh engine yields no indicator rows and leaves the engine state
unchanged, whereas a full historical replay of the same bar on another
fresh engine yields one row and a different (initialized) state. -/
theorem C2_counterexample :
    ((process_new_data freshEngine [⟨0, 1⟩]).2.1 = []) ∧
    ((initialize_from_history freshEngine [⟨0, 1⟩]).2.1.length = 1) ∧
    ((process_new_data freshEngine [⟨0, 1⟩]).1 ≠
      (initialize_from_history freshEngine [⟨0, 1⟩]).1) := by
  refine ⟨rfl, rfl, ?_⟩
  intro h
  have h1 : (process_new_data freshEngine [⟨0, 1⟩]).1.initialized = false := rfl
  have h2 : (initialize_from_history freshEngine [⟨0, 1⟩]).1.initialized =
      true := rfl
  rw [h] at h1
  rw [h1] at h2
  exact absurd h2 (by simp)

/-- Amended claim C2: for a nonempty bar sequence with strictly
increasing open times, a full historical replay on one fresh engine is
equivalent to initializing another fresh engine on the first bar alone
and feeding the remaining bars one at a time through the incremental
path: the final engine states (every calculator, flag and timestamp)
are identical and the indicator rows agree bar for bar.  (The fresh
second engine of the original claim must first be initialized, since
process_new_data refuses to run before initialization.) -/
theorem C2_amended (b0 : Bar) (rest : List Bar)
    (hmono : List.Chain (fun a b : Bar => a.open_time < b.open_time) b0 rest) :
    ((initialize_from_history freshEngine (b0 :: rest)).1 =
      (process_new_data (initialize_from_history freshEngine [b0]).1 rest).1) ∧
    ((initialize_from_history freshEngine (b0 :: rest)).2.1 =
      (initialize_from_history freshEngine [b0]).2.1 ++
        (process_new_data (initialize_from_history freshEngine [b0]).1
          rest).2.1) := by
  have hst1 : (initialize_from_history freshEngine [b0]).1 =
      { (initialize_step freshEngine b0.close_).1 with
          initialized := true, last_processed_time := some b0.open_time } := rfl
  have hrows1 : (initialize_from_history freshEngine [b0]).2.1 =
      [(initialize_step freshEngine b0.close_).2] := rfl
  cases rest with
  | nil =>
    refine ⟨?_, ?_⟩
    · rw [hst1]
      rfl
    · rw [hrows1]
      rfl
  | cons b1 rest' =>
    have hchain : List.Chain (fun a b => a < b) b0.open_time
        ((b1 :: rest').map Bar.open_time) := by
      rw [List.chain_map]
      exact hmono
    have hproc : process_new_data (initialize_from_history freshEngine [b0]).1
        (b1 :: rest') =
        (let folded := process_rows (initialize_from_history freshEngine
            [b0]).1 (b1 :: rest')
         (folded.1, folded.2, !folded.2.isEmpty)) := by
      rw [hst1]
      rfl
    rw [hproc]
    rw [process_rows_eq (b1 :: rest') _ b0.open_time (by rw [hst1]) hchain]
    rw [hst1]
    rw [initialize_rows_config (b1 :: rest')
        (initialize_step freshEngine b0.close_).1 true (some b0.open_time)]
    have hgl : ((b0 :: b1 :: rest').getLast?).map Bar.open_time =
        lastTime (some b0.open_time) (b1 :: rest') := by
      rw [← lastTime_cons (some b0.open_time) b0 (b1 :: rest')]
      simp only [lastTime]
      cases hg : (b0 :: b1 :: rest').getLast? with
      | some x => rfl
      | none =>
        have hs : ((b0 :: b1 :: rest').getLast?).isSome = true := by
          rw [List.getLast?_isSome]
          simp
        rw [hg] at hs
        simp at hs
    have hlhs : initialize_from_history freshEngine (b0 :: b1 :: rest') =
        ({ (initialize_rows (initialize_step freshEngine b0.close_).1
              (b1 :: rest')).1 with
            initialized := true
            last_processed_time :=
              lastTime (some b0.open_time) (b1 :: rest') },
         (initialize_step freshEngine b0.close_).2 ::
           (initialize_rows (initialize_step freshEngine b0.close_).1
             (b1 :: rest')).2,
         true) := by
      simp only [initialize_from_history, initialize_rows,
        if_neg (List.cons_ne_nil b0 (b1 :: rest'))]
      rw [hgl]
    rw [hlhs, hrows1]
    exact ⟨rfl, rfl⟩

/-- Witness for the amended C2 on a concrete two-bar sequence. -/
theorem C2_amended_witness :
    ((initialize_from_history freshEngine [⟨0, 1⟩, ⟨1, 2⟩]).1 =
      (process_new_data (initialize_from_history freshEngine [⟨0, 1⟩]).1
        [⟨1, 2⟩]).1) ∧
    ((initialize_from_history freshEngine [⟨0, 1⟩, ⟨1, 2⟩]).2.1 =
      (initialize_from_history freshEngine [⟨0, 1⟩]).2.1 ++
        (process_new_data (initialize_from_history freshEngine [⟨0, 1⟩]).1
          [⟨1, 2⟩]).2.1) :=
  C2_amended ⟨0, 1⟩ [⟨1, 2⟩] (List.Chain.cons (by decide) List.Chain.nil)

/-- Claim C1: over any sequence of well-formed input events, every
CompletedBar the aggregator emits satisfies
`high - low >= range_size` — the proof shows this holds for every bar,
ordinary completions and both large-jump bars alike, so in particular
with the claim's permitted exception for the final large-jump fragment —
and the aggregator state holds at most one in-progress CurrentBar (its
current_bar is an Option: none or exactly one). -/
theorem C1_span_invariant (rs : ℚ) (ks : List Kline) (st : AggState)
    (hrs : 0 < rs) (hwf : ∀ k ∈ ks, WFKline k) (hst : GoodState st) :
    (∀ b ∈ (create_range_bar_from_klines rs ks st).1, rs ≤ b.high - b.low) ∧
    ((create_range_bar_from_klines rs ks st).2.current_bar = none ∨
     ∃ cb, (create_range_bar_from_klines rs ks st).2.current_bar = some cb) := by
  refine ⟨(create_range_bars_good rs ks st hwf hst).2, ?_⟩
  cases (create_range_bar_from_klines rs ks st).2.current_bar with
  | none => exact Or.inl rfl
  | some cb => exact Or.inr ⟨cb, rfl⟩

/-- Witness for C1 at a concrete input: a two-event run that completes
one bar; the emitted bar spans at least range_size = 1. -/
theorem C1_span_invariant_witness :
    (⟨0, 0, 1, 0, 1, 2, 1, 4, 6, 1, 2, 0⟩ : CompletedBar) ∈
      (create_range_bar_from_klines 1
        [⟨0, 0, 0, 0, 0, 0, 0, 1, 2, 3⟩, ⟨1, 1, 1, 1, 1, 0, 1, 1, 2, 3⟩]
        ⟨none, []⟩).1 ∧
    (1:ℚ) ≤ (⟨0, 0, 1, 0, 1, 2, 1, 4, 6, 1, 2, 0⟩ : CompletedBar).high -
      (⟨0, 0, 1, 0, 1, 2, 1, 4, 6, 1, 2, 0⟩ : CompletedBar).low :=
  ⟨by rw [two_kline_run_eval]; exact List.mem_singleton.mpr rfl,
   (C1_span_invariant 1
     [⟨0, 0, 0, 0, 0, 0, 0, 1, 2, 3⟩, ⟨1, 1, 1, 1, 1, 0, 1, 1, 2, 3⟩]
     ⟨none, []⟩ (by norm_num) (by decide)
     (by intro cb hmem; simp at hmem)).1
     ⟨0, 0, 1, 0, 1, 2, 1, 4, 6, 1, 2, 0⟩
     (by rw [two_kline_run_eval]; exact List.mem_singleton.mpr rfl)⟩

/-- Claim C9: every CompletedBar the aggregator emits — ordinary
completions as well as both bars of a large-jump split — has its taker
buy base volume equal to exactly half its volume and its taker buy
quote volume equal to exactly half its quote volume: the 50/50 estimate
of create_completed_bar is applied to every bar. -/
theorem C9_taker_even_split (rs : ℚ) (ks : List Kline) (st : AggState) :
    ∀ b ∈ (create_range_bar_from_klines rs ks st).1,
      b.taker_buy_base = b.volume * (1/2) ∧
      b.taker_buy_quote = b.quote_asset_volume * (1/2) := by
  induction ks generalizing st with
  | nil => simp [create_range_bar_from_klines]
  | cons k ks ih =>
    intro b hb
    simp only [create_range_bar_from_klines, List.mem_append] at hb
    rcases hb with hb | hb
    · exact range_bar_step_taker rs k st b hb
    · exact ih (range_bar_step rs st k).2 b hb

/-- Witness for C9 at a concrete input: the bar emitted by a two-event
run carries taker buy volumes equal to half its totals. -/
theorem C9_taker_even_split_witness :
    (⟨0, 0, 1, 0, 1, 2, 1, 4, 6, 1, 2, 0⟩ : CompletedBar) ∈
      (create_range_bar_from_klines 1
        [⟨0, 0, 0, 0, 0, 0, 0, 1, 2, 3⟩, ⟨1, 1, 1, 1, 1, 0, 1, 1, 2, 3⟩]
        ⟨none, []⟩).1 ∧
    ((⟨0, 0, 1, 0, 1, 2, 1, 4, 6, 1, 2, 0⟩ : CompletedBar).taker_buy_base =
        (⟨0, 0, 1, 0, 1, 2, 1, 4, 6, 1, 2, 0⟩ : CompletedBar).volume * (1/2) ∧
      (⟨0, 0, 1, 0, 1, 2, 1, 4, 6, 1, 2, 0⟩ : CompletedBar).taker_buy_quote =
        (⟨0, 0, 1, 0, 1, 2, 1, 4, 6, 1, 2, 0⟩ : CompletedBar).quote_asset_volume *
          (1/2)) :=
  ⟨by rw [two_kline_run_eval]; exact List.mem_singleton.mpr rfl,
   C9_taker_even_split 1
     [⟨0, 0, 0, 0, 0, 0, 0, 1, 2, 3⟩, ⟨1, 1, 1, 1, 1, 0, 1, 1, 2, 3⟩]
     ⟨none, []⟩ ⟨0, 0, 1, 0, 1, 2, 1, 4, 6, 1, 2, 0⟩
     (by rw [two_kline_run_eval]; exact List.mem_singleton.mpr rfl)⟩

/-- Counterexample to C3 as stated: from an in-progress bar with
open = high = low = 0 and range_size = 1, an event at price 1.5 (well
inside the claimed scenario `O + 1.5 * range_size`) produces one
CompletedBar closing at 1.5 — not at `O + range_size` — and the new
in-progress bar opens at 1.5 with zero span: it carries none of the
move, not the claimed remaining `0.5 * range_size`. -/
theorem C3_counterexample :
    ((create_range_bar_from_klines 1
        [⟨1, 1, 1, 3/2, 3/2, 3/2, 3/2, 0, 0, 0⟩]
        ⟨some ⟨0, 0, 0, 0, 0, 0⟩, []⟩).1.map
          (fun b => (b.open_, b.close_)) = [(0, 3/2)]) ∧
    ((create_range_bar_from_klines 1
        [⟨1, 1, 1, 3/2, 3/2, 3/2, 3/2, 0, 0, 0⟩]
        ⟨some ⟨0, 0, 0, 0, 0, 0⟩, []⟩).2.current_bar.map
          (fun cb => cb.high - cb.low) = some 0) ∧
    ((create_range_bar_from_klines 1
        [⟨1, 1, 1, 3/2, 3/2, 3/2, 3/2, 0, 0, 0⟩]
        ⟨some ⟨0, 0, 0, 0, 0, 0⟩, []⟩).2.current_bar.map
          (fun cb => cb.open_price) = some (3/2)) ∧
    (0 : ℚ) ≠ (1/2) * 1 ∧ (3/2 : ℚ) ≠ 0 + 1 := by
  rw [jump_15_run_eval]
  refine ⟨rfl, by norm_num, rfl, by norm_num, by norm_num⟩

/-- Amended claim C3: from an in-progress bar whose open, high and low
all equal O, an event at exactly `O + 2 * range_size` emits exactly two
CompletedBars — the first closing at `O + range_size`, the second
opening there and ending at the triggering price, their combined
movement equal to the observed move — while an event at
`O + 1.5 * range_size` goes through ordinary completion: it emits
exactly one CompletedBar spanning the full observed move (closing at
`O + 1.5 * range_size`, not at `O + range_size`) plus a new in-progress
bar seeded at that price with zero span, carrying none of the move. -/
theorem C3_amended (O r : ℚ) (hr : 0 < r) :
    ((create_range_bar_from_klines r
        [⟨1, 1, 1, O + 2*r, O + 2*r, O + 2*r, O + 2*r, 0, 0, 0⟩]
        ⟨some ⟨O, O, O, O, 0, 0⟩, []⟩).1.map
          (fun b => (b.open_, b.close_)) = [(O, O + r), (O + r, O + 2*r)]) ∧
    (((O + r) - O) + ((O + 2*r) - (O + r)) = (O + 2*r) - O) ∧
    ((create_range_bar_from_klines r
        [⟨1, 1, 1, O + 2*r, O + 2*r, O + 2*r, O + 2*r, 0, 0, 0⟩]
        ⟨some ⟨O, O, O, O, 0, 0⟩, []⟩).2.current_bar =
      some ⟨O + 2*r, O + 2*r, O + 2*r, O + 2*r, 1, 1⟩) ∧
    ((create_range_bar_from_klines r
        [⟨1, 1, 1, O + 3/2*r, O + 3/2*r, O + 3/2*r, O + 3/2*r, 0, 0, 0⟩]
        ⟨some ⟨O, O, O, O, 0, 0⟩, []⟩).1.map
          (fun b => (b.open_, b.close_)) = [(O, O + 3/2*r)]) ∧
    ((create_range_bar_from_klines r
        [⟨1, 1, 1, O + 3/2*r, O + 3/2*r, O + 3/2*r, O + 3/2*r, 0, 0, 0⟩]
        ⟨some ⟨O, O, O, O, 0, 0⟩, []⟩).2.current_bar =
      some ⟨O + 3/2*r, O + 3/2*r, O + 3/2*r, O + 3/2*r, 1, 1⟩) := by
  rw [jump_2r_eval O r hr, jump_15r_eval O r hr]
  exact ⟨rfl, by ring, rfl, rfl, rfl⟩

/-- Counterexample to C4 as stated: with the watermark at 1000 ms and a
triggered gap check at now = 5000 ms, the fetched window starts at
2000 ms — one full second (1000 ms) after the watermark — not at
1001 ms as the claim's "+1 millisecond" would require. -/
theorem C4_counterexample :
    (((check_for_data_gaps 5000 (fun _ _ => [])
        ⟨true, false, false, none, some 1000, true, 0, []⟩).fetch_calls.head?).map
        Prod.fst = some 2000) ∧
    ¬ (((check_for_data_gaps 5000 (fun _ _ => [])
        ⟨true, false, false, none, some 1000, true, 0, []⟩).fetch_calls.head?).map
        Prod.fst = some (1000 + 1)) := by decide

/-- Amended claim C4: whenever gap recovery decides to backfill and the
window is positive, the window is `[last_success + 1000 ms,
now - 2000 ms]` — the start is exactly one second after the watermark
and the end is the current time minus a two-second safety margin.  The
first chunk request starts exactly at the window start, and when the
window fits in a single 1000-second chunk the one request is exactly
the window. -/
theorem C4_amended (now last : ℤ) (st : GapState)
    (fetch : ℤ → ℤ → List Kline)
    (h1 : st.prefetch_completed = true)
    (h2 : st.gap_filling_in_progress = false)
    (h3 : st.data_gap_filling = false)
    (h4 : debounce_ok now st = true)
    (h5 : st.last_successful_ws_update = some last)
    (h6 : gap_triggered now last st = true)
    (h7 : last + 1000 < now - 2000) :
    (((check_for_data_gaps now fetch st).fetch_calls.head?).map Prod.fst =
      some (last + 1000)) ∧
    (now - 2000 ≤ last + 1000 + 1000000 →
      (check_for_data_gaps now fetch st).fetch_calls =
        [(last + 1000, now - 2000)]) := by
  rw [check_eq_core now fetch st last h1 h2 h3 h4 h5 h6]
  simp only [gap_fill_core]
  rw [if_neg (by omega)]
  constructor
  · split_ifs <;>
      rw [gapChunkLoop_head fetch (now - 2000) (last + 1000) _ h7] <;>
      simp
  · intro h8
    have harg := congrArg Prod.fst
      (gapChunkLoop_single fetch (now - 2000) (last + 1000)
        ((now - 2000 - (last + 1000)).toNat) h7 h8)
    simp only at harg
    split_ifs <;> exact harg

/-- Witness for the amended C4: watermark 1000 ms, now 5000 ms — the
single fetched chunk is exactly [2000, 3000]. -/
theorem C4_amended_witness :
    (((check_for_data_gaps 5000 (fun _ _ => [])
        ⟨true, false, false, none, some 1000, true, 0, []⟩).fetch_calls.head?).map
        Prod.fst = some (1000 + 1000)) ∧
    ((5000:ℤ) - 2000 ≤ 1000 + 1000 + 1000000 →
      (check_for_data_gaps 5000 (fun _ _ => [])
        ⟨true, false, false, none, some 1000, true, 0, []⟩).fetch_calls =
        [(1000 + 1000, 5000 - 2000)]) :=
  C4_amended 5000 1000 ⟨true, false, false, none, some 1000, true, 0, []⟩
    (fun _ _ => []) rfl rfl rfl rfl rfl (by decide) (by decide)

/-- Counterexample to C5 as stated: a gap-recovery invocation reached
with retry counter 2 and a window with start >= end (watermark at
now - 2500 ms, so start = now - 1500 > end = now - 2000) fetches
nothing and leaves the watermark alone, but it RESETS the retry counter
to 0 — so the retry counter IS mutated, contradicting the claim. -/
theorem C5_counterexample :
    ((check_for_data_gaps 5000 (fun _ _ => [])
        ⟨true, false, false, none, some 2500, false, 2, []⟩).st.gap_fill_retry_count
      = 0) ∧
    ((⟨true, false, false, none, some 2500, false, 2, []⟩ :
        GapState).gap_fill_retry_count = 2) ∧
    ((0:ℕ) ≠ 2) ∧
    ((check_for_data_gaps 5000 (fun _ _ => [])
        ⟨true, false, false, none, some 2500, false, 2, []⟩).fetch_calls = []) ∧
    ((check_for_data_gaps 5000 (fun _ _ => [])
        ⟨true, false, false, none, some 2500, false, 2, []⟩).st.last_successful_ws_update
      = some 2500) := by decide

/-- Amended claim C5: a triggered gap-recovery invocation whose computed
window has start >= end returns immediately without fetching anything
and leaves the watermark and the pending-event buffer unchanged, but it
resets the retry counter to zero (rather than leaving it unchanged). -/
theorem C5_amended (now last : ℤ) (st : GapState)
    (fetch : ℤ → ℤ → List Kline)
    (h1 : st.prefetch_completed = true)
    (h2 : st.gap_filling_in_progress = false)
    (h3 : st.data_gap_filling = false)
    (h4 : debounce_ok now st = true)
    (h5 : st.last_successful_ws_update = some last)
    (h6 : gap_triggered now last st = true)
    (h7 : now - 2000 ≤ last + 1000) :
    ((check_for_data_gaps now fetch st).filled = false) ∧
    ((check_for_data_gaps now fetch st).fetch_calls = []) ∧
    ((check_for_data_gaps now fetch st).st.last_successful_ws_update =
      st.last_successful_ws_update) ∧
    ((check_for_data_gaps now fetch st).st.klines_data = st.klines_data) ∧
    ((check_for_data_gaps now fetch st).st.gap_fill_retry_count = 0) := by
  rw [check_eq_core now fetch st last h1 h2 h3 h4 h5 h6]
  unfold gap_fill_core
  rw [if_pos (by omega)]
  exact ⟨rfl, rfl, rfl, rfl, rfl⟩

/-- Witness for the amended C5: retry counter 2, window [3500, 3000]. -/
theorem C5_amended_witness :
    ((check_for_data_gaps 5000 (fun _ _ => [])
        ⟨true, false, false, none, some 2500, false, 2, []⟩).filled = false) ∧
    ((check_for_data_gaps 5000 (fun _ _ => [])
        ⟨true, false, false, none, some 2500, false, 2, []⟩).fetch_calls = []) ∧
    ((check_for_data_gaps 5000 (fun _ _ => [])
        ⟨true, false, false, none, some 2500, false, 2, []⟩).st.last_successful_ws_update
      = (⟨true, false, false, none, some 2500, false, 2, []⟩ :
          GapState).last_successful_ws_update) ∧
    ((check_for_data_gaps 5000 (fun _ _ => [])
        ⟨true, false, false, none, some 2500, false, 2, []⟩).st.klines_data =
      (⟨true, false, false, none, some 2500, false, 2, []⟩ :
          GapState).klines_data) ∧
    ((check_for_data_gaps 5000 (fun _ _ => [])
        ⟨true, false, false, none, some 2500, false, 2, []⟩).st.gap_fill_retry_count
      = 0) :=
  C5_amended 5000 2500 ⟨true, false, false, none, some 2500, false, 2, []⟩
    (fun _ _ => []) rfl rfl rfl rfl rfl (by decide) (by decide)

/-- Claim C6: during a triggered backfill over a positive window, an
attempt that collects no data increments the retry counter and leaves
the watermark alone; once the incremented counter reaches the maximum
of 3 the manager gives up, advances the watermark to the current time
and resets the counter to zero; and a successful backfill advances the
watermark to the window end and clears the counter. -/
theorem C6_backfill_retry_watermark (now last : ℤ) (st : GapState)
    (fetch : ℤ → ℤ → List Kline)
    (h1 : st.prefetch_completed = true)
    (h2 : st.gap_filling_in_progress = false)
    (h3 : st.data_gap_filling = false)
    (h4 : debounce_ok now st = true)
    (h5 : st.last_successful_ws_update = some last)
    (h6 : gap_triggered now last st = true)
    (h7 : last + 1000 < now - 2000) :
    (gap_collected now fetch last = [] →
      ((check_for_data_gaps now fetch st).filled = false) ∧
      (st.gap_fill_retry_count + 1 < 3 →
        (check_for_data_gaps now fetch st).st.gap_fill_retry_count =
          st.gap_fill_retry_count + 1 ∧
        (check_for_data_gaps now fetch st).st.last_successful_ws_update =
          some last) ∧
      (3 ≤ st.gap_fill_retry_count + 1 →
        (check_for_data_gaps now fetch st).st.gap_fill_retry_count = 0 ∧
        (check_for_data_gaps now fetch st).st.last_successful_ws_update =
          some now)) ∧
    (gap_collected now fetch last ≠ [] →
      ((check_for_data_gaps now fetch st).filled = true) ∧
      ((check_for_data_gaps now fetch st).st.gap_fill_retry_count = 0) ∧
      ((check_for_data_gaps now fetch st).st.last_successful_ws_update =
        some (now - 2000))) := by
  rw [check_eq_core now fetch st last h1 h2 h3 h4 h5 h6]
  simp only [gap_fill_core]
  rw [if_neg (by omega)]
  constructor
  · intro hemp
    simp only [gap_collected] at hemp
    rw [if_pos (by simpa [List.isEmpty_iff] using hemp)]
    by_cases hmax : 3 ≤ st.gap_fill_retry_count + 1
    · rw [if_pos hmax]
      exact ⟨rfl, fun hlt => absurd hmax (by omega), fun _ => ⟨rfl, rfl⟩⟩
    · rw [if_neg hmax]
      exact ⟨rfl, fun _ => ⟨rfl, h5⟩, fun hge => absurd hge hmax⟩
  · intro hne
    simp only [gap_collected] at hne
    rw [if_neg (by simpa [List.isEmpty_iff] using hne)]
    exact ⟨rfl, rfl, rfl⟩

/-- Witness for C6: an empty backfill increments the retry counter and
keeps the watermark; a successful backfill sets the watermark to the
window end (3000 ms) and clears the counter. -/
theorem C6_backfill_retry_watermark_witness :
    ((check_for_data_gaps 5000 (fun _ _ => [])
        ⟨true, false, false, none, some 1000, true, 0, []⟩).st.gap_fill_retry_count
      = 0 + 1) ∧
    ((check_for_data_gaps 5000 (fun _ _ => [])
        ⟨true, false, false, none, some 1000, true, 0, []⟩).st.last_successful_ws_update
      = some 1000) ∧
    ((check_for_data_gaps 5000
        (fun _ _ => [⟨2500, 2500, 2500, 1, 1, 1, 1, 1, 1, 1⟩])
        ⟨true, false, false, none, some 1000, true, 0, []⟩).filled = true) ∧
    ((check_for_data_gaps 5000
        (fun _ _ => [⟨2500, 2500, 2500, 1, 1, 1, 1, 1, 1, 1⟩])
        ⟨true, false, false, none, some 1000, true, 0, []⟩).st.last_successful_ws_update
      = some (5000 - 2000)) :=
  ⟨(((C6_backfill_retry_watermark 5000 1000
      ⟨true, false, false, none, some 1000, true, 0, []⟩ (fun _ _ => [])
      rfl rfl rfl rfl rfl (by decide) (by decide)).1 (by decide)).2.1
      (by decide)).1,
   (((C6_backfill_retry_watermark 5000 1000
      ⟨true, false, false, none, some 1000, true, 0, []⟩ (fun _ _ => [])
      rfl rfl rfl rfl rfl (by decide) (by decide)).1 (by decide)).2.1
      (by decide)).2,
   ((C6_backfill_retry_watermark 5000 1000
      ⟨true, false, false, none, some 1000, true, 0, []⟩
      (fun _ _ => [⟨2500, 2500, 2500, 1, 1, 1, 1, 1, 1, 1⟩])
      rfl rfl rfl rfl rfl (by decide) (by decide)).2 (by decide)).1,
   ((C6_backfill_retry_watermark 5000 1000
      ⟨true, false, false, none, some 1000, true, 0, []⟩
      (fun _ _ => [⟨2500, 2500, 2500, 1, 1, 1, 1, 1, 1, 1⟩])
      rfl rfl rfl rfl rfl (by decide) (by decide)).2 (by decide)).2.2⟩

/-- Witness for the amended C3 at O = 0, range_size = 1. -/
theorem C3_amended_witness :
    ((create_range_bar_from_klines 1
        [⟨1, 1, 1, 0 + 2*1, 0 + 2*1, 0 + 2*1, 0 + 2*1, 0, 0, 0⟩]
        ⟨some ⟨0, 0, 0, 0, 0, 0⟩, []⟩).1.map
          (fun b => (b.open_, b.close_)) =
        [((0:ℚ), 0 + 1), ((0:ℚ) + 1, 0 + 2*1)]) ∧
    (((0 + 1) - 0) + ((0 + 2*1) - (0 + 1)) = ((0:ℚ) + 2*1) - 0) ∧
    ((create_range_bar_from_klines 1
        [⟨1, 1, 1, 0 + 2*1, 0 + 2*1, 0 + 2*1, 0 + 2*1, 0, 0, 0⟩]
        ⟨some ⟨0, 0, 0, 0, 0, 0⟩, []⟩).2.current_bar =
      some ⟨0 + 2*1, 0 + 2*1, 0 + 2*1, 0 + 2*1, 1, 1⟩) ∧
    ((create_range_bar_from_klines 1
        [⟨1, 1, 1, 0 + 3/2*1, 0 + 3/2*1, 0 + 3/2*1, 0 + 3/2*1, 0, 0, 0⟩]
        ⟨some ⟨0, 0, 0, 0, 0, 0⟩, []⟩).1.map
          (fun b => (b.open_, b.close_)) = [((0:ℚ), 0 + 3/2*1)]) ∧
    ((create_range_bar_from_klines 1
        [⟨1, 1, 1, 0 + 3/2*1, 0 + 3/2*1, 0 + 3/2*1, 0 + 3/2*1, 0, 0, 0⟩]
        ⟨some ⟨0, 0, 0, 0, 0, 0⟩, []⟩).2.current_bar =
      some ⟨0 + 3/2*1, 0 + 3/2*1, 0 + 3/2*1, 0 + 3/2*1, 1, 1⟩) :=
  C3_amended 0 1 (by norm_num)
